import Mathlib

/-!
# Verification of `getcal.py`

A shallow embedding, in Lean 4, of the single-file calendar tool
`src/getcal.py`, together with theorems settling the specification
claims about it.

Modelling conventions:

* Python dictionaries coming from the calendar API are modelled by
  structures with `Option String` fields; Python truthiness on such a
  field (`if raw_dt:`) is `Option.getD "" ≠ ""`.
* The process-local timezone (`LOCAL_TZ` / `LOCAL_TZ_NAME`, read once at
  module load from `tzlocal`) is modelled as an explicit `LocalTz` value
  (a fixed UTC offset in minutes plus the `tzname()` abbreviation and the
  IANA zone name) threaded through as a parameter.
* Aware-`datetime` arithmetic with `timedelta` is, as in CPython,
  wall-clock arithmetic: adding one day increments the calendar date and
  leaves the wall time unchanged.
* External effects (subprocess invocations, the OAuth library, the file
  system) are modelled by environment records describing the outcome of
  each call, and functions return the observable result together with the
  list of effects performed, in order.
-/

namespace GetCal

/-! ## Calendar arithmetic

Proleptic-Gregorian conversions between (year, month, day) triples and a
day count with epoch 1970-01-01 = 0, mirroring what CPython's `datetime`
module computes via its ordinal representation. -/

/-- Gregorian leap-year rule, as `calendar.isleap` / `datetime` use it. -/
def isLeap (y : Int) : Bool :=
  (y % 4 == 0 && y % 100 != 0) || y % 400 == 0

/-- Length of month `m` (1-12) in year `y`. -/
def daysInMonth (y : Int) (m : Nat) : Nat :=
  if m = 2 then (if isLeap y then 29 else 28)
  else if m = 4 ∨ m = 6 ∨ m = 9 ∨ m = 11 then 30
  else 31

/-- Days since 1970-01-01 of the civil date `(y, m, d)`. -/
def daysFromCivil (y : Int) (m : Nat) (d : Nat) : Int :=
  let y1 : Int := if m ≤ 2 then y - 1 else y
  let era : Int := y1.ediv 400
  let yoe : Int := y1 - era * 400
  let mp : Int := (Int.ofNat m + 9).emod 12
  let doy : Int := (153 * mp + 2).ediv 5 + Int.ofNat d - 1
  let doe : Int := yoe * 365 + yoe.ediv 4 - yoe.ediv 100 + doy
  era * 146097 + doe - 719468

/-- Civil date `(y, m, d)` of the day `z` days after 1970-01-01. -/
def civilFromDays (z0 : Int) : Int × Nat × Nat :=
  let z : Int := z0 + 719468
  let era : Int := z.ediv 146097
  let doe : Int := z - era * 146097
  let yoe : Int := (doe - doe.ediv 1460 + doe.ediv 36524 - doe.ediv 146096).ediv 365
  let y : Int := yoe + era * 400
  let doy : Int := doe - (365 * yoe + yoe.ediv 4 - yoe.ediv 100)
  let mp : Int := (5 * doy + 2).ediv 153
  let d : Int := doy - (153 * mp + 2).ediv 5 + 1
  let m : Int := mp + (if mp < 10 then 3 else -9)
  (if m ≤ 2 then y + 1 else y, m.toNat, d.toNat)

/-! ## `datetime` values and the local timezone -/

/-- A Python `datetime.datetime` value as far as this program observes it:
calendar fields plus an optional fixed UTC offset in minutes (`none` for a
naive datetime). Sub-second precision is never observed by the program
(`strftime` stops at minutes), so it is not modelled. -/
structure PyDateTime where
  year : Int
  month : Nat
  day : Nat
  hour : Nat
  minute : Nat
  second : Nat
  offset : Option Int
  deriving DecidableEq, Repr

/-- The resolved local timezone: `LOCAL_TZ` / `LOCAL_TZ_NAME` in the
source, read once from `tzlocal.get_localzone_name()`. Modelled as a
fixed UTC offset; `abbrevName` is what `tzname()` returns on a localized
datetime (`none` models a zone for which `tzname()` yields `None`), and
`zoneName` is the IANA name `LOCAL_TZ_NAME`. -/
structure LocalTz where
  offsetMinutes : Int
  abbrevName : Option String
  zoneName : String
  deriving DecidableEq, Repr

/-- Wall-clock minutes since the epoch of the datetime's own clock. -/
def wallClockMinutes (p : PyDateTime) : Int :=
  daysFromCivil p.year p.month p.day * 1440 + Int.ofNat (p.hour * 60 + p.minute)

/-- `datetime.astimezone(LOCAL_TZ)`: an aware datetime is converted to
the local zone through UTC; a naive datetime is assumed to already be in
system local time (CPython's rule), so its wall clock is unchanged. -/
def astimezone (p : PyDateTime) (tz : LocalTz) : PyDateTime :=
  match p.offset with
  | none => { p with offset := some tz.offsetMinutes }
  | some o =>
    let localWall : Int := wallClockMinutes p - o + tz.offsetMinutes
    let dayOrd : Int := localWall.ediv 1440
    let rem : Nat := (localWall.emod 1440).toNat
    let c := civilFromDays dayOrd
    ⟨c.1, c.2.1, c.2.2, rem / 60, rem % 60, p.second, some tz.offsetMinutes⟩

/-- The decimal digit character for `d < 10`. -/
def digitChar (d : Nat) : Char := Char.ofNat (48 + d)

/-- Zero-padded two-digit rendering (`%m`, `%d`, `%H`, `%M`). -/
def pad2 (n : Nat) : String :=
  String.mk [digitChar (n / 10 % 10), digitChar (n % 10)]

/-- Zero-padded four-digit rendering (`%Y` for the years the program
validates, 1-9999). -/
def pad4 (n : Int) : String :=
  let k := n.toNat
  String.mk [digitChar (k / 1000 % 10), digitChar (k / 100 % 10),
             digitChar (k / 10 % 10), digitChar (k % 10)]

/-- `local_dt.strftime('%Y-%m-%d %H:%M')`. -/
def strftimeYmdHm (p : PyDateTime) : String :=
  pad4 p.year ++ "-" ++ pad2 p.month ++ "-" ++ pad2 p.day ++ " " ++
    pad2 p.hour ++ ":" ++ pad2 p.minute

end GetCal

namespace GetCal

/-! ## `datetime.fromisoformat`

The program parses event instants with `dt.datetime.fromisoformat` and the
date argument with `dt.date.fromisoformat`. These are CPython standard
library routines (not code of this repository); they are modelled here on
the grammar CPython ≤ 3.10 accepts — exactly the strings `isoformat()`
emits: `YYYY-MM-DD`, optionally followed by one separator character and
`HH[:MM[:SS[.fff or .ffffff]]]`, optionally followed by a fixed offset
`±HH:MM`. Strings outside this grammar (for instance a trailing `Z`)
raise `ValueError`, modelled by `none`. -/

/-- Parse two decimal digits. -/
def parseTwoDigits : List Char → Option (Nat × List Char)
  | a :: b :: rest =>
    if a.isDigit && b.isDigit then
      some ((a.toNat - 48) * 10 + (b.toNat - 48), rest)
    else none
  | _ => none

/-- Parse and range-check the leading `YYYY-MM-DD`. -/
def parseDatePart (l : List Char) : Option (Int × Nat × Nat × List Char) :=
  match l with
  | y1 :: y2 :: y3 :: y4 :: s1 :: m1 :: m2 :: s2 :: d1 :: d2 :: rest =>
    if y1.isDigit && y2.isDigit && y3.isDigit && y4.isDigit &&
       s1 = '-' && m1.isDigit && m2.isDigit && s2 = '-' &&
       d1.isDigit && d2.isDigit then
      let y : Nat := (y1.toNat - 48) * 1000 + (y2.toNat - 48) * 100 +
                     (y3.toNat - 48) * 10 + (y4.toNat - 48)
      let m : Nat := (m1.toNat - 48) * 10 + (m2.toNat - 48)
      let d : Nat := (d1.toNat - 48) * 10 + (d2.toNat - 48)
      if 1 ≤ y ∧ 1 ≤ m ∧ m ≤ 12 ∧ 1 ≤ d ∧ d ≤ daysInMonth (Int.ofNat y) m then
        some (Int.ofNat y, m, d, rest)
      else none
    else none
  | _ => none

/-- Parse a fixed UTC offset `±HH:MM` closing the string, in minutes. -/
def parseTzOffset : List Char → Option Int
  | c :: rest =>
    if c = '+' ∨ c = '-' then
      match parseTwoDigits rest with
      | some (oh, c2 :: r2) =>
        if c2 = ':' then
          match parseTwoDigits r2 with
          | some (om, []) =>
            if oh ≤ 23 && om ≤ 59 then
              some ((if c = '-' then (-1 : Int) else 1) * (Int.ofNat (oh * 60 + om)))
            else none
          | _ => none
        else none
      | _ => none
    else none
  | [] => none

/-- Skip an optional fractional-seconds part `.fff` or `.ffffff`. -/
def skipFraction : List Char → Option (List Char)
  | c :: rest =>
    if c = '.' then
      let ds := rest.takeWhile Char.isDigit
      if ds.length = 3 ∨ ds.length = 6 then some (rest.drop ds.length) else none
    else some (c :: rest)
  | [] => some []

/-- Parse the time-of-day part `HH[:MM[:SS[.frac]]][±HH:MM]`. -/
def parseTimePart (l : List Char) : Option (Nat × Nat × Nat × Option Int) :=
  match parseTwoDigits l with
  | none => none
  | some (h, rest) =>
    if h ≥ 24 then none else
    match rest with
    | [] => some (h, 0, 0, none)
    | c :: r2 =>
      if c = ':' then
        match parseTwoDigits r2 with
        | none => none
        | some (mi, rest2) =>
          if mi ≥ 60 then none else
          match rest2 with
          | [] => some (h, mi, 0, none)
          | c2 :: r3 =>
            if c2 = ':' then
              match parseTwoDigits r3 with
              | none => none
              | some (se, rest3) =>
                if se ≥ 60 then none else
                match skipFraction rest3 with
                | none => none
                | some [] => some (h, mi, se, none)
                | some rest4 => (parseTzOffset rest4).map (fun off => (h, mi, se, some off))
            else (parseTzOffset (c2 :: r3)).map (fun off => (h, mi, 0, some off))
      else (parseTzOffset (c :: r2)).map (fun off => (h, 0, 0, some off))

/-- `dt.datetime.fromisoformat`, modelled on the CPython ≤ 3.10 grammar. -/
def fromisoformat (s : String) : Option PyDateTime :=
  match parseDatePart s.data with
  | none => none
  | some (y, m, d, rest) =>
    match rest with
    | [] => some ⟨y, m, d, 0, 0, 0, none⟩
    | _sep :: timeChars =>
      match parseTimePart timeChars with
      | none => none
      | some (h, mi, se, off) => some ⟨y, m, d, h, mi, se, off⟩

/-- `dt.date.fromisoformat`: exactly `YYYY-MM-DD`. -/
def dateFromIsoformat (s : String) : Option (Int × Nat × Nat) :=
  match parseDatePart s.data with
  | some (y, m, d, []) => some (y, m, d)
  | _ => none

end GetCal

namespace GetCal

/-! ## Event records and start-time formatting -/

/-- The `"start"` sub-dictionary of an event record: at most one of
`"dateTime"` (a timed instant) and `"date"` (an all-day date) per the
provider, though the code handles any combination. -/
structure EventStart where
  dateTime : Option String
  date : Option String
  deriving DecidableEq, Repr

/-- A provider event record, restricted to the keys the program reads. -/
structure Event where
  start : Option EventStart
  summary : Option String
  htmlLink : Option String
  deriving DecidableEq, Repr

/-- Python string truthiness on an optional dictionary entry: `None` and
the empty string are falsy. -/
def pyTruthy (o : Option String) : Bool := !(o.getD "").isEmpty

/-- Python `x or dflt` on an optional string. -/
def orDefault (o : Option String) (dflt : String) : String :=
  if (o.getD "").isEmpty then dflt else o.getD ""

/-- `local_dt.tzname() or LOCAL_TZ_NAME`: under the fixed-offset timezone
model the abbreviation does not depend on the instant. -/
def tzLabel (tz : LocalTz) : String :=
  if (tz.abbrevName.getD "").isEmpty then tz.zoneName else tz.abbrevName.getD ""

/-- `format_start_time` (getcal.py:131-144). -/
def format_start_time (tz : LocalTz) (start : EventStart) : String :=
  let raw_dt := start.dateTime.getD ""
  let raw_date := start.date.getD ""
  if ¬raw_dt.isEmpty then
    match fromisoformat raw_dt with
    | none => raw_dt ++ " (raw)"
    | some parsed =>
      let local_dt := astimezone parsed tz
      strftimeYmdHm local_dt ++ " (" ++ tzLabel tz ++ ")"
  else if ¬raw_date.isEmpty then raw_date ++ " (all-day)"
  else "?"

/-- `extract_event_fields` (getcal.py:123-128); `event.get("start", {})`
defaults a missing start dictionary to the empty one. -/
def extract_event_fields (tz : LocalTz) (event : Event) : String × String × String :=
  let start := event.start.getD ⟨none, none⟩
  let start_value := format_start_time tz start
  let summary := orDefault event.summary "(no title)"
  let html_link := orDefault event.htmlLink ""
  (start_value, summary, html_link)

/-! ## HTML escaping

`html.escape` with the default `quote=True` performs five sequential
`str.replace` passes (`&` first, then `<`, `>`, `"`, `'`); because the
`&` pass runs first and no entity it introduces contains a later-replaced
character, the result coincides with this per-character translation. -/

/-- The double-quote character. -/
def quotChar : Char := Char.ofNat 34

/-- The apostrophe character. -/
def aposChar : Char := Char.ofNat 39

/-- Per-character translation of `html.escape(s, quote=True)`. -/
def escapeChar (c : Char) : String :=
  if c = '&' then "&amp;"
  else if c = '<' then "&lt;"
  else if c = '>' then "&gt;"
  else if c = quotChar then "&quot;"
  else if c = aposChar then "&#x27;"
  else String.singleton c

/-- `escapeChar` mapped over a character list. -/
def escapeList : List Char → List Char
  | [] => []
  | c :: cs => (escapeChar c).data ++ escapeList cs

/-- `html.escape` (imported as `escape` in getcal.py). -/
def escape (s : String) : String := String.mk (escapeList s.data)

/-! ## The two formatters -/

/-- `"\n".join(blocks)`. -/
def joinNl : List String → String
  | [] => ""
  | [b] => b
  | b :: bs => b ++ "\n" ++ joinNl bs

/-- `"".join(parts)`. -/
def concatAll : List String → String
  | [] => ""
  | p :: ps => p ++ concatAll ps

/-- The string the loop body of `format_events_text` appends to `blocks`
for one event. -/
def eventTextBlock (tz : LocalTz) (event : Event) : String :=
  let f := extract_event_fields tz event
  let start_value := f.1
  let summary := f.2.1
  let html_link := f.2.2
  let link_text := if ¬html_link.isEmpty then
    "[" ++ summary ++ "](" ++ html_link ++ ")" else summary
  start_value ++ " - " ++ link_text

/-- The `blocks` list built by the loop in `format_events_text`, as the
loop builds it: successive appends starting from `[]`. -/
def textBlocksLoop (tz : LocalTz) (events : List Event) : List String :=
  events.foldl (fun blocks event => blocks ++ [eventTextBlock tz event]) []

/-- `format_events_text` (getcal.py:147-155). -/
def format_events_text (tz : LocalTz) (events : List Event) : String :=
  match events with
  | [] => "No events."
  | _ :: _ => joinNl (textBlocksLoop tz events)

/-- The string the loop body of `format_events_html` appends to `parts`
for one event (the f-string at getcal.py:170, with the anchor or bare
escaped summary at getcal.py:166-169 substituted in). -/
def eventHtmlBlock (tz : LocalTz) (event : Event) : String :=
  let f := extract_event_fields tz event
  let start_value := f.1
  let summary := f.2.1
  let html_link := f.2.2
  let start_html := escape start_value
  let summary_html := escape summary
  let link_html := if ¬html_link.isEmpty then
    "<a href=" ++ String.singleton quotChar ++ escape html_link ++
      String.singleton quotChar ++ ">" ++ summary_html ++ "</a>"
  else summary_html
  "<p><strong>" ++ start_html ++ "</strong> - " ++ link_html ++ "</p>"

/-- The per-event strings the loop in `format_events_html` appends to
`parts`, in loop order. -/
def htmlPartsLoop (tz : LocalTz) (events : List Event) : List String :=
  events.foldl (fun parts event => parts ++ [eventHtmlBlock tz event]) []

/-- `format_events_html` (getcal.py:158-172): `parts` starts as
`["<html><body>"]`, the loop appends one paragraph per event,
`"</body></html>"` is appended, and the parts are joined. -/
def format_events_html (tz : LocalTz) (events : List Event) : String :=
  match events with
  | [] => "<p>No events.</p>"
  | _ :: _ =>
    concatAll (("<html><body>" :: htmlPartsLoop tz events) ++ ["</body></html>"])

end GetCal

namespace GetCal

/-! ## The day window and the fetch query (`fetch_events_for_day`)

Dates are represented by their day ordinal (days since 1970-01-01); the
next calendar date is ordinal + 1. A local wall-clock datetime is a date
ordinal plus minutes past local midnight; `dt.datetime.combine(day,
dt.time.min, tzinfo=LOCAL_TZ)` and aware `+ dt.timedelta(days=1)` are
wall-clock operations in CPython. -/

/-- A local wall-clock instant: calendar date ordinal and minutes past
local midnight. -/
structure WallDateTime where
  dateOrd : Int
  minuteOfDay : Nat
  deriving DecidableEq, Repr

/-- `dt.datetime.combine(day, dt.time.min, tzinfo=LOCAL_TZ)`. -/
def combineMidnight (day : Int) : WallDateTime := ⟨day, 0⟩

/-- Aware-datetime `+ dt.timedelta(days=1)`: CPython datetime-timedelta
addition acts on the wall clock, advancing the date and keeping the time
of day. -/
def addOneDay (t : WallDateTime) : WallDateTime := ⟨t.dateOrd + 1, t.minuteOfDay⟩

/-- Total wall-clock minutes of a local instant. -/
def wallMinutes (t : WallDateTime) : Int := t.dateOrd * 1440 + Int.ofNat t.minuteOfDay

/-- The one events-list query `fetch_events_for_day` issues
(getcal.py:106-120). -/
structure EventsQuery where
  calendarId : String
  timeMin : WallDateTime
  timeMax : WallDateTime
  singleEvents : Bool
  orderBy : String
  deriving DecidableEq, Repr

/-- The query `fetch_events_for_day` builds for target date `day`:
`local_start` is local midnight of `day` and `local_end` is
`local_start + timedelta(days=1)`. -/
def fetchEventsQuery (day : Int) : EventsQuery :=
  let local_start := combineMidnight day
  let local_end := addOneDay local_start
  ⟨"primary", local_start, local_end, true, "startTime"⟩

/-- `fetch_events_for_day` on a service whose response to the query is
given by the environment: returns `result.get("items", [])`. -/
def fetch_events_for_day (respondTo : EventsQuery → Option (List Event))
    (day : Int) : List Event :=
  (respondTo (fetchEventsQuery day)).getD []

/-! ## Credential acquisition (`get_credentials`, getcal.py:75-98)

The Google credential object and the external calls (`Request`,
`from_authorized_user_file`, `refresh`, the installed-app flow) are
modelled by an environment describing each call's outcome. -/

/-- The slice of a `google.oauth2.credentials.Credentials` object the
program observes. -/
structure Creds where
  valid : Bool
  expired : Bool
  hasRefreshToken : Bool
  deriving DecidableEq, Repr

/-- Outcome of `creds.refresh(Request())`: either it succeeds (mutating
the credential into a valid, unexpired one) or it raises
(`google.auth.exceptions.RefreshError`). -/
inductive RefreshOutcome
  | success
  | failure
  deriving DecidableEq, Repr

/-- Environment of one `get_credentials` run. -/
structure CredEnv where
  tokenFileExists : Bool
  storedCreds : Creds
  refreshOutcome : RefreshOutcome
  credentialsFileExists : Bool
  flowResult : Creds
  deriving DecidableEq, Repr

/-- Externally visible side effects of `get_credentials`, in program
order. -/
inductive CredEffect
  | refreshCall
  | writeTokenFile
  | runInteractiveFlow
  deriving DecidableEq, Repr

/-- How a `get_credentials` run ends. -/
inductive CredResult
  | ok (c : Creds)
  | exitConsentRequired
  | exitMissingClientSecret
  | refreshErrorRaised
  deriving DecidableEq, Repr

/-- The credential produced by a successful `creds.refresh(Request())`. -/
def refreshedCreds (c : Creds) : Creds := { c with valid := true, expired := false }

/-- `get_credentials(interactive)`: result and ordered effect list. -/
def get_credentials (env : CredEnv) (interactive : Bool) : CredResult × List CredEffect :=
  let creds : Option Creds :=
    if env.tokenFileExists then some env.storedCreds else none
  if (creds.map Creds.valid).getD false then
    (CredResult.ok (creds.getD env.storedCreds), [])
  else if (creds.map (fun c => c.expired && c.hasRefreshToken)).getD false then
    match env.refreshOutcome with
    | RefreshOutcome.failure =>
      (CredResult.refreshErrorRaised, [CredEffect.refreshCall])
    | RefreshOutcome.success =>
      (CredResult.ok (refreshedCreds (creds.getD env.storedCreds)),
       [CredEffect.refreshCall, CredEffect.writeTokenFile])
  else if !interactive then
    (CredResult.exitConsentRequired, [])
  else if !env.credentialsFileExists then
    (CredResult.exitMissingClientSecret, [])
  else
    (CredResult.ok env.flowResult,
     [CredEffect.runInteractiveFlow, CredEffect.writeTokenFile])

end GetCal

namespace GetCal

/-! ## Clipboard publication (getcal.py:175-231)

The two external binaries (`textutil`, `pbcopy`) are modelled by an
environment giving the outcome of each `subprocess.run` invocation:
normal completion, `FileNotFoundError` (binary absent), or
`CalledProcessError` (non-zero exit under `check=True`). -/

/-- Outcome of one `subprocess.run(..., check=True)` call. -/
inductive RunOutcome
  | ok
  | notFound
  | fail (msg : String)
  deriving DecidableEq, Repr

/-- Environment of one clipboard-publication run. -/
structure ClipEnv where
  textutilOutcome : RunOutcome
  pbcopyRtfOutcome : RunOutcome
  pbcopyPlainOutcome : RunOutcome
  deriving DecidableEq, Repr

/-- How `convert_html_to_rtf` (getcal.py:175-195) ends: conversion
succeeds; `FileNotFoundError` is turned into a `SystemExit` mentioning
`textutil`; a `CalledProcessError` propagates unhandled. -/
inductive ConvResult
  | converted
  | exitTextutilMissing
  | processError (msg : String)
  deriving DecidableEq, Repr

/-- `convert_html_to_rtf`: the outcome is determined by the `textutil`
invocation's outcome. -/
def convert_html_to_rtf (env : ClipEnv) (_html : String) : ConvResult :=
  match env.textutilOutcome with
  | RunOutcome.ok => ConvResult.converted
  | RunOutcome.notFound => ConvResult.exitTextutilMissing
  | RunOutcome.fail m => ConvResult.processError m

/-- How a clipboard publication ends: rich-text copy succeeded, the
plain-text form `text` was copied instead, or a `SystemExit` with message
`msg` was raised. -/
inductive ClipResult
  | copiedRich
  | copiedPlain (text : String)
  | fatalExit (msg : String)
  deriving DecidableEq, Repr

/-- `copy_plain_text` (getcal.py:198-208). -/
def copy_plain_text (env : ClipEnv) (text : String) : ClipResult :=
  match env.pbcopyPlainOutcome with
  | RunOutcome.ok => ClipResult.copiedPlain text
  | RunOutcome.notFound =>
    ClipResult.fatalExit "pbcopy not found. Install macOS command line tools or use --dry-run."
  | RunOutcome.fail m => ClipResult.fatalExit ("Failed to copy to clipboard: " ++ m)

/-- `copy_to_clipboard` (getcal.py:211-231): result together with the
lines printed to the error stream. The `SystemExit` raised inside
`convert_html_to_rtf` and any `CalledProcessError` from it are caught and
degrade to the plain-text tier with a notice; failures of the rich-text
`pbcopy` invocation itself are re-raised as `SystemExit`. -/
def copy_to_clipboard (env : ClipEnv) (plain_text html_text : String) :
    ClipResult × List String :=
  match convert_html_to_rtf env html_text with
  | ConvResult.exitTextutilMissing =>
    (copy_plain_text env plain_text, ["Falling back to plain-text clipboard copy."])
  | ConvResult.processError m =>
    (copy_plain_text env plain_text,
     ["Failed to convert HTML to RTF (" ++ m ++ "), using plain text."])
  | ConvResult.converted =>
    match env.pbcopyRtfOutcome with
    | RunOutcome.ok => (ClipResult.copiedRich, [])
    | RunOutcome.notFound =>
      (ClipResult.fatalExit "pbcopy not found. Install macOS command line tools or use --dry-run.", [])
    | RunOutcome.fail m =>
      (ClipResult.fatalExit ("Failed to copy RTF to clipboard: " ++ m), [])

/-! ## Date argument and `main` (getcal.py:234-265) -/

/-- `parse_date` (getcal.py:234-240): a falsy argument defaults to
today's date; otherwise `dt.date.fromisoformat`, with `ValueError`
becoming a fatal `SystemExit` echoing the offending value. Dates are
returned as day ordinals. -/
def parse_date (today : Int) (date_str : Option String) : Except String Int :=
  if !pyTruthy date_str then Except.ok today
  else
    match dateFromIsoformat (date_str.getD "") with
    | some (y, m, d) => Except.ok (daysFromCivil y m d)
    | none => Except.error (date_str.getD "")

/-- Observable steps of a `main` run, in program order. -/
inductive Step
  | credentialRefresh
  | tokenFileWrite
  | interactiveFlow
  | credentialsAcquired
  | serviceBuild
  | fetchCall
  | printSummary (eventCount : Nat) (targetDay : Int)
  | printPlainBody (text : String)
  | clipboardCopy
  deriving DecidableEq, Repr

/-- The step a credential-side effect contributes to the run trace. -/
def credEffectStep : CredEffect → Step
  | CredEffect.refreshCall => Step.credentialRefresh
  | CredEffect.writeTokenFile => Step.tokenFileWrite
  | CredEffect.runInteractiveFlow => Step.interactiveFlow

/-- How a `main` run ends. -/
inductive MainResult
  | exitZero
  | exitConsentRequired
  | exitMissingClientSecret
  | refreshErrorRaised
  | exitInvalidDate (arg : String)
  | exitClipboard (msg : String)
  deriving DecidableEq, Repr

/-- Environment of one `main` run: parsed arguments plus the outcome of
every external interaction. -/
structure MainEnv where
  credEnv : CredEnv
  clipEnv : ClipEnv
  tz : LocalTz
  nonInteractive : Bool
  dryRun : Bool
  dateArg : Option String
  today : Int
  respondTo : EventsQuery → Option (List Event)

/-- `main` (getcal.py:243-265): credentials first, then service
construction, then date parsing, then fetch, format, print, and either
dry-run printing or clipboard publication. -/
def main (env : MainEnv) : List Step × MainResult :=
  let cr := get_credentials env.credEnv (!env.nonInteractive)
  let credSteps := cr.2.map credEffectStep
  match cr.1 with
  | CredResult.exitConsentRequired => (credSteps, MainResult.exitConsentRequired)
  | CredResult.exitMissingClientSecret => (credSteps, MainResult.exitMissingClientSecret)
  | CredResult.refreshErrorRaised => (credSteps, MainResult.refreshErrorRaised)
  | CredResult.ok _ =>
    let steps1 := credSteps ++ [Step.credentialsAcquired, Step.serviceBuild]
    match parse_date env.today env.dateArg with
    | Except.error s => (steps1, MainResult.exitInvalidDate s)
    | Except.ok target_day =>
      let events := fetch_events_for_day env.respondTo target_day
      let plain_output := format_events_text env.tz events
      let steps2 := steps1 ++ [Step.fetchCall, Step.printSummary events.length target_day]
      if env.dryRun then
        (steps2 ++ [Step.printPlainBody plain_output], MainResult.exitZero)
      else
        let html_output := format_events_html env.tz events
        let clip := copy_to_clipboard env.clipEnv plain_output html_output
        match clip.1 with
        | ClipResult.fatalExit m =>
          (steps2 ++ [Step.clipboardCopy], MainResult.exitClipboard m)
        | _ => (steps2 ++ [Step.clipboardCopy], MainResult.exitZero)

end GetCal

namespace GetCal

/-! ## Helper lemmas -/

/-- A nonempty character list stays nonempty under a left append. -/
lemma data_ne_nil_left {a : List Char} (b : List Char) (h : a ≠ []) :
    a ++ b ≠ [] := by
  simp [List.append_eq_nil, h]

/-- A string with nonempty character data is not the empty string. -/
lemma ne_empty_of_data {s : String} (h : s.data ≠ []) : s ≠ "" := by
  intro he
  exact h (by simp [he])

/-- Infixes are preserved by appending on the left. -/
lemma infix_appendRight {α : Type} {l R : List α} (L : List α) (h : l <:+: R) :
    l <:+: L ++ R := by
  obtain ⟨s, t, rfl⟩ := h
  exact ⟨L ++ s, t, by simp⟩

/-- Infixes are preserved by appending on the right. -/
lemma infix_appendLeft {α : Type} {l L : List α} (R : List α) (h : l <:+: L) :
    l <:+: L ++ R := by
  obtain ⟨s, t, rfl⟩ := h
  exact ⟨s, t ++ R, by simp⟩

/-- A decomposition of a string exhibits an infix of its data. -/
lemma str_infix_of_decomp {inner s : String} (pre post : String)
    (h : s = pre ++ inner ++ post) : inner.data <:+: s.data := by
  subst h
  exact ⟨pre.data, post.data, by simp [String.data_append]⟩

/-- Appending one element at a time in a left fold is `List.map`. -/
lemma foldl_append_map {α β : Type} (f : α → β) :
    ∀ (l : List α) (init : List β),
      l.foldl (fun acc x => acc ++ [f x]) init = init ++ l.map f := by
  intro l
  induction l with
  | nil => intro init; simp
  | cons x xs ih => intro init; simp [ih]

/-- The text-formatter loop collects exactly the per-event blocks in
input order. -/
lemma textBlocksLoop_eq_map (tz : LocalTz) (events : List Event) :
    textBlocksLoop tz events = events.map (eventTextBlock tz) := by
  simpa [textBlocksLoop] using foldl_append_map (eventTextBlock tz) events []

/-- The HTML-formatter loop collects exactly the per-event paragraphs in
input order. -/
lemma htmlPartsLoop_eq_map (tz : LocalTz) (events : List Event) :
    htmlPartsLoop tz events = events.map (eventHtmlBlock tz) := by
  simpa [htmlPartsLoop] using foldl_append_map (eventHtmlBlock tz) events []

/-- `concatAll` distributes over list append. -/
lemma concatAll_append : ∀ (l₁ l₂ : List String),
    concatAll (l₁ ++ l₂) = concatAll l₁ ++ concatAll l₂ := by
  intro l₁ l₂
  induction l₁ with
  | nil => simp [concatAll, String.empty_append]
  | cons p ps ih => simp [concatAll, ih, String.append_assoc]

/-- A member of the part list is an infix of the concatenation. -/
lemma infix_concatAll {s : String} : ∀ {l : List String}, s ∈ l →
    s.data <:+: (concatAll l).data := by
  intro l
  induction l with
  | nil => intro h; cases h
  | cons p ps ih =>
    intro h
    rw [show concatAll (p :: ps) = p ++ concatAll ps from rfl, String.data_append]
    rcases List.mem_cons.mp h with rfl | hmem
    · exact infix_appendLeft _ (List.infix_refl _)
    · exact infix_appendRight _ (ih hmem)

/-- A member of the block list is an infix of the newline join. -/
lemma infix_joinNl {s : String} : ∀ {l : List String}, s ∈ l →
    s.data <:+: (joinNl l).data := by
  intro l
  induction l with
  | nil => intro h; cases h
  | cons b bs ih =>
    intro h
    rcases List.mem_cons.mp h with rfl | hmem
    · cases bs with
      | nil => exact List.infix_refl _
      | cons b2 bs2 =>
        rw [show joinNl (s :: b2 :: bs2) = s ++ "\n" ++ joinNl (b2 :: bs2) from rfl]
        rw [String.append_assoc, String.data_append]
        exact infix_appendLeft _ (List.infix_refl _)
    · cases bs with
      | nil => cases hmem
      | cons b2 bs2 =>
        rw [show joinNl (b :: b2 :: bs2) = b ++ "\n" ++ joinNl (b2 :: bs2) from rfl]
        rw [String.append_assoc, String.data_append]
        exact infix_appendRight _ (by
          rw [String.data_append]
          exact infix_appendRight _ (ih hmem))

end GetCal

namespace GetCal

/-! ## Escaping lemmas -/

/-- No single-character translation contains a raw `<`. -/
lemma escapeChar_not_lt (c : Char) : '<' ∉ (escapeChar c).data := by
  unfold escapeChar
  split_ifs with h1 h2 h3 h4 h5
  · decide
  · decide
  · decide
  · decide
  · decide
  · intro h
    rcases List.mem_singleton.mp h with rfl
    exact h2 rfl

/-- No single-character translation contains a raw `>`. -/
lemma escapeChar_not_gt (c : Char) : '>' ∉ (escapeChar c).data := by
  unfold escapeChar
  split_ifs with h1 h2 h3 h4 h5
  · decide
  · decide
  · decide
  · decide
  · decide
  · intro h
    rcases List.mem_singleton.mp h with rfl
    exact h3 rfl

/-- No single-character translation contains a raw double quote. -/
lemma escapeChar_not_quot (c : Char) : quotChar ∉ (escapeChar c).data := by
  unfold escapeChar
  split_ifs with h1 h2 h3 h4 h5
  · decide
  · decide
  · decide
  · decide
  · decide
  · intro h
    rcases List.mem_singleton.mp h with heq
    exact h4 heq.symm

/-- A character avoided by every single-character translation does not
occur in an escaped list. -/
lemma escapeList_not_mem {c : Char} (hc : ∀ d, c ∉ (escapeChar d).data) :
    ∀ l, c ∉ escapeList l := by
  intro l
  induction l with
  | nil => simp [escapeList]
  | cons d ds ih =>
    intro h
    rcases List.mem_append.mp h with h1 | h2
    · exact hc d h1
    · exact ih h2

/-- The translation of any character of the input is an infix of the
escaped list. -/
lemma escapeList_entity {c : Char} : ∀ {l : List Char}, c ∈ l →
    (escapeChar c).data <:+: escapeList l := by
  intro l
  induction l with
  | nil => intro h; cases h
  | cons d ds ih =>
    intro h
    rw [show escapeList (d :: ds) = (escapeChar d).data ++ escapeList ds from rfl]
    rcases List.mem_cons.mp h with rfl | hmem
    · exact infix_appendLeft _ (List.infix_refl _)
    · exact infix_appendRight _ (ih hmem)

/-- An escaped string contains no raw `<`. -/
lemma escape_not_lt (s : String) : '<' ∉ (escape s).data :=
  escapeList_not_mem escapeChar_not_lt s.data

/-- An escaped string contains no raw `>`. -/
lemma escape_not_gt (s : String) : '>' ∉ (escape s).data :=
  escapeList_not_mem escapeChar_not_gt s.data

/-- An escaped string contains no raw double quote. -/
lemma escape_not_quot (s : String) : quotChar ∉ (escape s).data :=
  escapeList_not_mem escapeChar_not_quot s.data

/-- Escaping a string containing `<` produces the entity `&lt;`. -/
lemma escape_entity_lt {s : String} (h : '<' ∈ s.data) :
    "&lt;".data <:+: (escape s).data := by
  have := escapeList_entity (l := s.data) h
  simpa [escapeChar] using this

/-- Escaping a string containing `&` produces the entity `&amp;`. -/
lemma escape_entity_amp {s : String} (h : '&' ∈ s.data) :
    "&amp;".data <:+: (escape s).data := by
  have := escapeList_entity (l := s.data) h
  simpa [escapeChar] using this

end GetCal

namespace GetCal

/-! ## Block-structure lemmas for the two formatters -/

/-- The escaped summary is inside the event's HTML paragraph. -/
lemma summary_infix_htmlBlock (tz : LocalTz) (event : Event) :
    (escape ((extract_event_fields tz event).2.1)).data <:+:
      (eventHtmlBlock tz event).data := by
  by_cases hl : ((extract_event_fields tz event).2.2).isEmpty
  · exact str_infix_of_decomp
      ("<p><strong>" ++ escape ((extract_event_fields tz event).1) ++ "</strong> - ")
      "</p>"
      (by simp [eventHtmlBlock, hl, String.append_assoc])
  · exact str_infix_of_decomp
      ("<p><strong>" ++ escape ((extract_event_fields tz event).1) ++ "</strong> - " ++
        ("<a href=" ++ String.singleton quotChar ++
          escape ((extract_event_fields tz event).2.2) ++ String.singleton quotChar ++ ">"))
      ("</a>" ++ "</p>")
      (by simp [eventHtmlBlock, hl, String.append_assoc])

/-- The escaped start-time text is inside the event's HTML paragraph. -/
lemma start_infix_htmlBlock (tz : LocalTz) (event : Event) :
    (escape ((extract_event_fields tz event).1)).data <:+:
      (eventHtmlBlock tz event).data := by
  by_cases hl : ((extract_event_fields tz event).2.2).isEmpty
  · exact str_infix_of_decomp "<p><strong>"
      ("</strong> - " ++ escape ((extract_event_fields tz event).2.1) ++ "</p>")
      (by simp [eventHtmlBlock, hl, String.append_assoc])
  · exact str_infix_of_decomp "<p><strong>"
      ("</strong> - " ++
        ("<a href=" ++ String.singleton quotChar ++
          escape ((extract_event_fields tz event).2.2) ++ String.singleton quotChar ++ ">" ++
          escape ((extract_event_fields tz event).2.1) ++ "</a>") ++ "</p>")
      (by simp [eventHtmlBlock, hl, String.append_assoc])

/-- When a link is present, the quoted, attribute-escaped `href` value is
inside the event's HTML paragraph. -/
lemma href_infix_htmlBlock (tz : LocalTz) (event : Event)
    (hl : ¬((extract_event_fields tz event).2.2).isEmpty) :
    ("<a href=" ++ String.singleton quotChar ++
      escape ((extract_event_fields tz event).2.2) ++
      String.singleton quotChar ++ ">").data <:+: (eventHtmlBlock tz event).data :=
  str_infix_of_decomp
    ("<p><strong>" ++ escape ((extract_event_fields tz event).1) ++ "</strong> - ")
    (escape ((extract_event_fields tz event).2.1) ++ "</a>" ++ "</p>")
    (by simp [eventHtmlBlock, hl, String.append_assoc])

/-- The summary text is inside the event's text block. -/
lemma summary_infix_textBlock (tz : LocalTz) (event : Event) :
    ((extract_event_fields tz event).2.1).data <:+: (eventTextBlock tz event).data := by
  by_cases hl : ((extract_event_fields tz event).2.2).isEmpty
  · exact str_infix_of_decomp
      ((extract_event_fields tz event).1 ++ " - ") ""
      (by simp [eventTextBlock, hl, String.append_assoc, String.append_empty])
  · exact str_infix_of_decomp
      ((extract_event_fields tz event).1 ++ " - " ++ "[")
      ("](" ++ (extract_event_fields tz event).2.2 ++ ")")
      (by simp [eventTextBlock, hl, String.append_assoc]; rfl)

/-- Each input event's paragraph is an infix of the HTML output. -/
lemma block_infix_html {tz : LocalTz} {events : List Event} {event : Event}
    (hmem : event ∈ events) :
    (eventHtmlBlock tz event).data <:+: (format_events_html tz events).data := by
  have hparts : eventHtmlBlock tz event ∈ htmlPartsLoop tz events := by
    rw [htmlPartsLoop_eq_map]
    exact List.mem_map_of_mem _ hmem
  cases events with
  | nil => cases hmem
  | cons e es =>
    rw [show format_events_html tz (e :: es) =
      concatAll (("<html><body>" :: htmlPartsLoop tz (e :: es)) ++ ["</body></html>"]) from rfl]
    rw [concatAll_append, String.data_append]
    apply infix_appendLeft
    rw [show concatAll ("<html><body>" :: htmlPartsLoop tz (e :: es)) =
      "<html><body>" ++ concatAll (htmlPartsLoop tz (e :: es)) from rfl]
    rw [String.data_append]
    exact infix_appendRight _ (infix_concatAll hparts)

/-- Each input event's block is an infix of the text output. -/
lemma block_infix_text {tz : LocalTz} {events : List Event} {event : Event}
    (hmem : event ∈ events) :
    (eventTextBlock tz event).data <:+: (format_events_text tz events).data := by
  have hblocks : eventTextBlock tz event ∈ textBlocksLoop tz events := by
    rw [textBlocksLoop_eq_map]
    exact List.mem_map_of_mem _ hmem
  cases events with
  | nil => cases hmem
  | cons e es =>
    rw [show format_events_text tz (e :: es) = joinNl (textBlocksLoop tz (e :: es)) from rfl]
    exact infix_joinNl hblocks

end GetCal

namespace GetCal

/-! ## Concrete fixtures used by witnesses -/

/-- A concrete resolved local timezone (UTC-5, abbreviated EST). -/
def tzEx : LocalTz := ⟨-300, some "EST", "America/New_York"⟩

/-- A timed event whose title holds HTML-significant characters. -/
def evTimed : Event :=
  ⟨some ⟨some "2024-03-05T10:30:00+00:00", none⟩,
   some "Standup <1> & co",
   some "https://example.com/e?id=1&x=2"⟩

/-- An all-day event with no title and no link. -/
def evAllDay : Event := ⟨some ⟨none, some "2024-03-05"⟩, none, none⟩

/-- A credential environment holding a valid, unexpired stored token. -/
def credEnvValid : CredEnv :=
  ⟨true, ⟨true, false, true⟩, RefreshOutcome.success, true, ⟨true, false, false⟩⟩

/-- A credential environment holding an expired stored token with a
refresh token whose refresh exchange is rejected. -/
def credEnvRefreshFail : CredEnv :=
  ⟨true, ⟨false, true, true⟩, RefreshOutcome.failure, true, ⟨true, false, false⟩⟩

/-- A clipboard environment in which conversion succeeds but the
rich-text `pbcopy` invocation exits non-zero. -/
def clipEnvRtfWriteFails : ClipEnv :=
  ⟨RunOutcome.ok, RunOutcome.fail "exit status 1", RunOutcome.ok⟩

/-- A clipboard environment in which the `textutil` binary is absent. -/
def clipEnvNoTextutil : ClipEnv :=
  ⟨RunOutcome.notFound, RunOutcome.ok, RunOutcome.ok⟩

/-- A `main` environment with a valid stored credential and a malformed
date argument. -/
def mainEnvBadDate : MainEnv :=
  ⟨credEnvValid, clipEnvNoTextutil, tzEx, false, false,
   some "2024-13-01", 19800, fun _ => none⟩

/-! ## Auxiliary nonemptiness lemmas -/

/-- Any `a ++ " - " ++ b` has nonempty data. -/
lemma mid_ne_nil (a b : String) : (a ++ " - " ++ b).data ≠ [] := by
  rw [String.data_append, String.data_append]
  intro h
  rcases List.append_eq_nil.mp h with ⟨h1, _⟩
  rcases List.append_eq_nil.mp h1 with ⟨_, h4⟩
  exact absurd h4 (by decide)

/-- A newline join of blocks led by a nonempty block is nonempty. -/
lemma joinNl_data_ne_nil {b : String} (bs : List String) (hb : b.data ≠ []) :
    (joinNl (b :: bs)).data ≠ [] := by
  cases bs with
  | nil => simpa [joinNl]
  | cons b2 bs2 =>
    rw [show joinNl (b :: b2 :: bs2) = b ++ "\n" ++ joinNl (b2 :: bs2) from rfl,
        String.data_append, String.data_append]
    exact data_ne_nil_left _ (data_ne_nil_left _ hb)

/-! ## The claims -/

/-- **C3.** For every target date `D` (a day ordinal), the window used by
`fetch_events_for_day` is the half-open local-time interval from local
midnight of `D` to local midnight of the next date: the query's lower
bound is `combineMidnight D`, its upper bound is local midnight of
`D + 1`, and the window spans exactly 24 hours of local wall-clock
time. -/
theorem c3_day_window_24h (day : Int) :
    (fetchEventsQuery day).timeMin = combineMidnight day ∧
    (fetchEventsQuery day).timeMax = combineMidnight (day + 1) ∧
    wallMinutes (fetchEventsQuery day).timeMax -
      wallMinutes (fetchEventsQuery day).timeMin = 24 * 60 := by
  refine ⟨rfl, rfl, ?_⟩
  simp [fetchEventsQuery, wallMinutes, combineMidnight, addOneDay]
  ring

/-- **C6.** For every event sequence, including the empty one, both
formatters return a non-empty string; on the empty sequence the text form
is the fixed line `No events.` and the HTML form is the equivalent
paragraph `<p>No events.</p>`. -/
theorem c6_never_empty (tz : LocalTz) (events : List Event) :
    format_events_text tz events ≠ "" ∧
    format_events_html tz events ≠ "" ∧
    (events = [] →
      format_events_text tz events = "No events." ∧
      format_events_html tz events = "<p>No events.</p>") := by
  cases events with
  | nil =>
    refine ⟨?_, ?_, fun _ => ⟨rfl, rfl⟩⟩
    · show ("No events." : String) ≠ ""
      decide
    · show ("<p>No events.</p>" : String) ≠ ""
      decide
  | cons e es =>
    refine ⟨?_, ?_, fun h => by cases h⟩
    · apply ne_empty_of_data
      rw [show format_events_text tz (e :: es) =
            joinNl (textBlocksLoop tz (e :: es)) from rfl,
          textBlocksLoop_eq_map, List.map_cons]
      exact joinNl_data_ne_nil _ (mid_ne_nil _ _)
    · apply ne_empty_of_data
      rw [show format_events_html tz (e :: es) =
            "<html><body>" ++
              concatAll (htmlPartsLoop tz (e :: es) ++ ["</body></html>"]) from rfl,
          String.data_append]
      exact data_ne_nil_left _ (by decide)

/-- **C8.** For every ordered, non-empty event sequence, the rendered
text and HTML outputs are exactly the in-order concatenations of the
per-event blocks of the input sequence: the formatters never reorder
events. -/
theorem c8_no_reorder (tz : LocalTz) (events : List Event) (h : events ≠ []) :
    format_events_text tz events = joinNl (events.map (eventTextBlock tz)) ∧
    format_events_html tz events =
      "<html><body>" ++ concatAll (events.map (eventHtmlBlock tz)) ++ "</body></html>" := by
  cases events with
  | nil => exact absurd rfl h
  | cons e es =>
    constructor
    · rw [show format_events_text tz (e :: es) =
            joinNl (textBlocksLoop tz (e :: es)) from rfl, textBlocksLoop_eq_map]
    · rw [show format_events_html tz (e :: es) =
            "<html><body>" ++
              concatAll (htmlPartsLoop tz (e :: es) ++ ["</body></html>"]) from rfl,
          concatAll_append, htmlPartsLoop_eq_map]
      simp [concatAll, String.append_empty, String.append_assoc]

/-- Witness for **C8** at a concrete two-event list. -/
theorem c8_no_reorder_witness :
    format_events_text tzEx [evTimed, evAllDay] =
      joinNl ([evTimed, evAllDay].map (eventTextBlock tzEx)) ∧
    format_events_html tzEx [evTimed, evAllDay] =
      "<html><body>" ++
        concatAll ([evTimed, evAllDay].map (eventHtmlBlock tzEx)) ++ "</body></html>" :=
  c8_no_reorder tzEx [evTimed, evAllDay] (List.cons_ne_nil _ _)

/-- **C9.** Whenever the stored credential file exists and the loaded
credential is valid, `get_credentials` returns the stored credential
unchanged and performs no effect at all: no refresh exchange (network
call), no interactive authorization flow, and no write to the stored
token file. -/
theorem c9_valid_token_frame (env : CredEnv) (interactive : Bool)
    (h1 : env.tokenFileExists = true) (h2 : env.storedCreds.valid = true) :
    get_credentials env interactive = (CredResult.ok env.storedCreds, []) := by
  simp [get_credentials, h1, h2]

/-- Witness for **C9** at a concrete environment. -/
theorem c9_valid_token_frame_witness :
    get_credentials credEnvValid true = (CredResult.ok credEnvValid.storedCreds, []) :=
  c9_valid_token_frame credEnvValid true rfl rfl

end GetCal

namespace GetCal

/-- **C7.** For every event in the formatted list whose title is absent
or empty, both the text and the HTML renderings contain the fixed
placeholder `(no title)`; the (total) formatters never fail on a missing
title. -/
theorem c7_missing_title_placeholder (tz : LocalTz) (events : List Event)
    (event : Event) (hmem : event ∈ events)
    (ht : event.summary = none ∨ event.summary = some "") :
    "(no title)".data <:+: (format_events_text tz events).data ∧
    "(no title)".data <:+: (format_events_html tz events).data := by
  have hsum : (extract_event_fields tz event).2.1 = "(no title)" := by
    rcases ht with h | h <;> simp [extract_event_fields, orDefault, h] <;> rfl
  constructor
  · have h1 := summary_infix_textBlock tz event
    rw [hsum] at h1
    exact h1.trans (block_infix_text hmem)
  · have h1 := summary_infix_htmlBlock tz event
    rw [hsum, show escape "(no title)" = "(no title)" from rfl] at h1
    exact h1.trans (block_infix_html hmem)

/-- Witness for **C7** at a concrete title-less event. -/
theorem c7_missing_title_placeholder_witness :
    "(no title)".data <:+: (format_events_text tzEx [evAllDay]).data ∧
    "(no title)".data <:+: (format_events_html tzEx [evAllDay]).data :=
  c7_missing_title_placeholder tzEx [evAllDay] evAllDay
    (List.mem_singleton.mpr rfl) (Or.inl rfl)

/-- **C5.** For every formatted event: a `<` (resp. `&`) in the rendered
title makes the entity `&lt;` (resp. `&amp;`) appear in the HTML output;
the escaped title and escaped start-time text inserted into the output
contain no raw `<` or `>`; and when a link is present, the URL appears as
a quoted `href` attribute value escaped so that it contains no raw double
quote. -/
theorem c5_html_escaped (tz : LocalTz) (events : List Event) (event : Event)
    (hmem : event ∈ events) :
    ('<' ∈ ((extract_event_fields tz event).2.1).data →
      "&lt;".data <:+: (format_events_html tz events).data) ∧
    ('&' ∈ ((extract_event_fields tz event).2.1).data →
      "&amp;".data <:+: (format_events_html tz events).data) ∧
    '<' ∉ (escape ((extract_event_fields tz event).2.1)).data ∧
    '>' ∉ (escape ((extract_event_fields tz event).2.1)).data ∧
    '<' ∉ (escape ((extract_event_fields tz event).1)).data ∧
    quotChar ∉ (escape ((extract_event_fields tz event).2.2)).data ∧
    (¬((extract_event_fields tz event).2.2).isEmpty →
      ("<a href=" ++ String.singleton quotChar ++
        escape ((extract_event_fields tz event).2.2) ++
        String.singleton quotChar ++ ">").data <:+:
          (format_events_html tz events).data) := by
  refine ⟨?_, ?_, escape_not_lt _, escape_not_gt _, escape_not_lt _,
    escape_not_quot _, ?_⟩
  · intro h
    exact ((escape_entity_lt h).trans (summary_infix_htmlBlock tz event)).trans
      (block_infix_html hmem)
  · intro h
    exact ((escape_entity_amp h).trans (summary_infix_htmlBlock tz event)).trans
      (block_infix_html hmem)
  · intro hl
    exact (href_infix_htmlBlock tz event hl).trans (block_infix_html hmem)

/-- Witness for **C5** at a concrete event whose title holds `<` and `&`
and which carries a link. -/
theorem c5_html_escaped_witness :
    "&lt;".data <:+: (format_events_html tzEx [evTimed]).data ∧
    "&amp;".data <:+: (format_events_html tzEx [evTimed]).data ∧
    ("<a href=" ++ String.singleton quotChar ++
      escape ((extract_event_fields tzEx evTimed).2.2) ++
      String.singleton quotChar ++ ">").data <:+:
        (format_events_html tzEx [evTimed]).data := by
  have h := c5_html_escaped tzEx [evTimed] evTimed (List.mem_singleton.mpr rfl)
  exact ⟨h.1 (by decide), h.2.1 (by decide), h.2.2.2.2.2.2 (by decide)⟩

/-- **C4.** `format_start_time` renders: a parsable timed instant as the
local-time `YYYY-MM-DD HH:MM (ZoneAbbreviation)` form obtained by
converting the parsed instant to the local timezone; an unparsable
instant as the raw string suffixed with ` (raw)` (no failure); a
date-only start as the date suffixed with ` (all-day)`; and a start with
neither field (both absent or empty, per Python truthiness) as `?`. -/
theorem c4_start_time_cases (tz : LocalTz) (start : EventStart) :
    (∀ raw, start.dateTime = some raw → ¬raw.isEmpty →
      (fromisoformat raw = none →
        format_start_time tz start = raw ++ " (raw)") ∧
      (∀ p, fromisoformat raw = some p →
        format_start_time tz start =
          strftimeYmdHm (astimezone p tz) ++ " (" ++ tzLabel tz ++ ")")) ∧
    (pyTruthy start.dateTime = false →
      ∀ rawd, start.date = some rawd → ¬rawd.isEmpty →
        format_start_time tz start = rawd ++ " (all-day)") ∧
    (pyTruthy start.dateTime = false → pyTruthy start.date = false →
      format_start_time tz start = "?") := by
  refine ⟨?_, ?_, ?_⟩
  · intro raw hr hne
    constructor
    · intro hparse
      simp [format_start_time, hr, hne, hparse]
    · intro p hparse
      simp [format_start_time, hr, hne, hparse]
  · intro hdt rawd hrd hne
    have h1 : (start.dateTime.getD "").isEmpty := by simpa [pyTruthy] using hdt
    simp [format_start_time, h1, hrd, hne]
  · intro hdt hd
    have h1 : (start.dateTime.getD "").isEmpty := by simpa [pyTruthy] using hdt
    have h2 : (start.date.getD "").isEmpty := by simpa [pyTruthy] using hd
    simp [format_start_time, h1, h2]

/-- Witness for **C4**: all four cases at concrete inputs (a UTC instant
rendered in the local zone, an instant CPython ≤ 3.10 rejects, an all-day
date, and an empty start). -/
theorem c4_start_time_cases_witness :
    format_start_time tzEx ⟨some "2024-03-05T10:30:00+00:00", none⟩ =
      "2024-03-05 05:30 (EST)" ∧
    format_start_time tzEx ⟨some "2024-03-05T10:30:00Z", none⟩ =
      "2024-03-05T10:30:00Z (raw)" ∧
    format_start_time tzEx ⟨none, some "2024-03-05"⟩ = "2024-03-05 (all-day)" ∧
    format_start_time tzEx ⟨none, none⟩ = "?" := by
  refine ⟨?_, ?_, ?_, ?_⟩
  · have h := ((c4_start_time_cases tzEx ⟨some "2024-03-05T10:30:00+00:00", none⟩).1
      "2024-03-05T10:30:00+00:00" rfl (by decide)).2
      ⟨2024, 3, 5, 10, 30, 0, some 0⟩ (by decide)
    rw [h]
    decide
  · exact ((c4_start_time_cases tzEx ⟨some "2024-03-05T10:30:00Z", none⟩).1
      "2024-03-05T10:30:00Z" rfl (by decide)).1 (by decide)
  · exact (c4_start_time_cases tzEx ⟨none, some "2024-03-05"⟩).2.1 rfl
      "2024-03-05" rfl (by decide)
  · exact (c4_start_time_cases tzEx ⟨none, none⟩).2.2 rfl rfl

end GetCal

namespace GetCal

/-- **C2 counterexample.** With a stored credential that is expired and
holds a refresh token, a failing refresh exchange makes `get_credentials`
end in the uncaught refresh exception — for both interactive settings —
with only the refresh call performed: the failure is reported standalone
and does not fall through to the consent-required / interactive logic
(no consent exit, no interactive flow effect). -/
theorem c2_counterexample :
    get_credentials credEnvRefreshFail false =
      (CredResult.refreshErrorRaised, [CredEffect.refreshCall]) ∧
    get_credentials credEnvRefreshFail true =
      (CredResult.refreshErrorRaised, [CredEffect.refreshCall]) ∧
    CredResult.refreshErrorRaised ≠ CredResult.exitConsentRequired ∧
    CredEffect.refreshCall ≠ CredEffect.runInteractiveFlow :=
  ⟨rfl, rfl, by decide, by decide⟩

/-- **C2 (amended).** When the stored credential is expired with a
refresh token and the refresh exchange fails, the exception from
`creds.refresh` propagates out of `get_credentials` unhandled: no stale
credential is returned, but the run aborts on the spot instead of falling
through to the interactive-authorization / consent-required logic. -/
theorem c2_refresh_failure_raises (env : CredEnv) (interactive : Bool)
    (hex : env.tokenFileExists = true)
    (hv : env.storedCreds.valid = false)
    (hexp : env.storedCreds.expired = true)
    (hrt : env.storedCreds.hasRefreshToken = true)
    (hf : env.refreshOutcome = RefreshOutcome.failure) :
    get_credentials env interactive =
      (CredResult.refreshErrorRaised, [CredEffect.refreshCall]) := by
  simp [get_credentials, hex, hv, hexp, hrt, hf]

/-- Witness for the amended **C2** at a concrete environment. -/
theorem c2_refresh_failure_raises_witness :
    get_credentials credEnvRefreshFail false =
      (CredResult.refreshErrorRaised, [CredEffect.refreshCall]) :=
  c2_refresh_failure_raises credEnvRefreshFail false rfl rfl rfl rfl rfl

/-- **C1 counterexample.** When HTML-to-RTF conversion succeeds but the
rich-text `pbcopy` write exits non-zero (a failure whose reason is not
the binary being absent), `copy_to_clipboard` raises a fatal `SystemExit`
with no degradation notice on the error stream and without attempting
the plain-text tier — contradicting the claimed fallback for that
circumstance. -/
theorem c1_counterexample :
    copy_to_clipboard clipEnvRtfWriteFails "PLAIN" "HTML" =
      (ClipResult.fatalExit "Failed to copy RTF to clipboard: exit status 1", []) ∧
    (copy_to_clipboard clipEnvRtfWriteFails "PLAIN" "HTML").1 ≠
      copy_plain_text clipEnvRtfWriteFails "PLAIN" ∧
    (copy_to_clipboard clipEnvRtfWriteFails "PLAIN" "HTML").2 = [] :=
  ⟨rfl, by decide, rfl⟩

/-- **C1 (amended).** If the converter binary is absent or the
HTML-to-RTF conversion fails, `copy_to_clipboard` logs exactly one
degradation notice to the error stream and attempts the plain-text tier
with the plain-text form (which, when the plain `pbcopy` write succeeds,
copies exactly the plain-text form); but when the rich-text clipboard
write fails for a reason other than the binary being absent, the failure
is fatal — it raises `SystemExit` and never falls back to plain text. -/
theorem c1_degradation_amended (env : ClipEnv) (plain html : String) :
    (env.textutilOutcome = RunOutcome.notFound →
      copy_to_clipboard env plain html =
        (copy_plain_text env plain, ["Falling back to plain-text clipboard copy."])) ∧
    (∀ m, env.textutilOutcome = RunOutcome.fail m →
      copy_to_clipboard env plain html =
        (copy_plain_text env plain,
         ["Failed to convert HTML to RTF (" ++ m ++ "), using plain text."])) ∧
    (env.pbcopyPlainOutcome = RunOutcome.ok →
      copy_plain_text env plain = ClipResult.copiedPlain plain) ∧
    (∀ m, env.textutilOutcome = RunOutcome.ok →
      env.pbcopyRtfOutcome = RunOutcome.fail m →
      copy_to_clipboard env plain html =
        (ClipResult.fatalExit ("Failed to copy RTF to clipboard: " ++ m), [])) := by
  refine ⟨?_, ?_, ?_, ?_⟩
  · intro h
    simp [copy_to_clipboard, convert_html_to_rtf, h]
  · intro m h
    simp [copy_to_clipboard, convert_html_to_rtf, h]
  · intro h
    simp [copy_plain_text, h]
  · intro m h1 h2
    simp [copy_to_clipboard, convert_html_to_rtf, h1, h2]

/-- Witness for the amended **C1**: converter binary absent at a concrete
environment. -/
theorem c1_degradation_amended_witness :
    copy_to_clipboard clipEnvNoTextutil "PLAIN" "HTML" =
      (copy_plain_text clipEnvNoTextutil "PLAIN",
       ["Falling back to plain-text clipboard copy."]) ∧
    copy_plain_text clipEnvNoTextutil "PLAIN" = ClipResult.copiedPlain "PLAIN" := by
  have h := c1_degradation_amended clipEnvNoTextutil "PLAIN" "HTML"
  exact ⟨h.1 rfl, h.2.2.1 rfl⟩

/-- **C10.** When the date argument is present, non-empty and malformed,
and credential acquisition succeeds, `main` performs the whole credential
step sequence (which may include a refresh exchange or the interactive
flow) and constructs the calendar service before aborting with the
invalid-date error: a malformed date never short-circuits the OAuth
flow. -/
theorem c10_invalid_date_after_oauth (env : MainEnv) (s : String) (c : Creds)
    (hdate : env.dateArg = some s)
    (hne : ¬s.isEmpty)
    (hbad : dateFromIsoformat s = none)
    (hcred : (get_credentials env.credEnv (!env.nonInteractive)).1 = CredResult.ok c) :
    main env =
      ((get_credentials env.credEnv (!env.nonInteractive)).2.map credEffectStep ++
        [Step.credentialsAcquired, Step.serviceBuild],
       MainResult.exitInvalidDate s) := by
  have hpd : parse_date env.today env.dateArg = Except.error s := by
    simp [parse_date, pyTruthy, hdate, hne, hbad]
  simp [main, hcred, hpd]

/-- Witness for **C10** at a concrete environment with a valid stored
credential and the malformed date `2024-13-01`. -/
theorem c10_invalid_date_after_oauth_witness :
    main mainEnvBadDate =
      ([Step.credentialsAcquired, Step.serviceBuild],
       MainResult.exitInvalidDate "2024-13-01") := by
  have h := c10_invalid_date_after_oauth mainEnvBadDate "2024-13-01"
    mainEnvBadDate.credEnv.storedCreds rfl (by decide) (by decide) rfl
  simpa using h

end GetCal
